import Mathlib

/-!
Shallow embedding of the Adalpha optimizer family (Adalpha.py) and the
loss callbacks, over real-valued tensors modelled as functions
from Fin n to the reals.  Tensor elementwise operations, the TensorFlow
reductions reduce_mean and reduce_std (population standard deviation),
the safe division divide_no_nan, and the scatter-add primitive on
index-value slices are modelled directly; the per-parameter update_step
of both optimizer variants follows the Python source line by line.
-/

/-- Dense real tensor with n elements (shapes are flattened: every
operation the source performs is elementwise or a full reduction). -/
abbrev Tensor (n : ℕ) := Fin n → ℝ

/-- Mean of all elements of a tensor, as in tf.reduce_mean. -/
noncomputable def reduce_mean {n : ℕ} (x : Tensor n) : ℝ :=
  (∑ i, x i) / n

/-- Population standard deviation of all elements, as in tf.math.reduce_std:
the square root of the mean of the squared deviations from the mean. -/
noncomputable def reduce_std {n : ℕ} (x : Tensor n) : ℝ :=
  Real.sqrt (reduce_mean (fun i => (x i - reduce_mean x) ^ 2))

/-- Safe division as in tf.math.divide_no_nan: returns 0 when the
denominator is 0, the ordinary quotient otherwise. -/
noncomputable def divide_no_nan (a b : ℝ) : ℝ :=
  if b = 0 then 0 else a / b

/-- Sparse slices (index, value) and the scatter-add primitive: each slot
of the slice list adds its value at its index, values at repeated indices
accumulate, untouched indices are unchanged. -/
noncomputable def scatterAdd {n : ℕ} (t : Tensor n) (slices : List (Fin n × ℝ)) : Tensor n :=
  fun i => t i + ((slices.filter (fun p => p.1 == i)).map Prod.snd).sum

/-- Gradient argument of update_step: a dense tensor or sparse
IndexedSlices. -/
inductive Grad (n : ℕ) where
  | dense (g : Tensor n)
  | sparse (slices : List (Fin n × ℝ))

/-- Configuration constants of the optimizer, from the constructor of
Adalpha.  The chaos punishment exponent is a natural number, matching its
integer default and every use in the repository. -/
structure Config where
  lr : ℝ
  beta_1 : ℝ
  beta_2 : ℝ
  epsilon : ℝ
  amsgrad : Bool
  chaos_punish : ℕ

/-- Per-parameter mutable state read and written by update_step: first
moment m, second moment v, the AMS-grad running maximum vhat (only used
when amsgrad is set), and the parameter tensor itself. -/
structure ParamState (n : ℕ) where
  m : Tensor n
  v : Tensor n
  vhat : Tensor n
  param : Tensor n

/-- Zero-initialized moment state over a given parameter tensor, as
produced by build via add_variable_from_reference. -/
noncomputable def zeroState {n : ℕ} (p : Tensor n) : ParamState n :=
  { m := fun _ => 0, v := fun _ => 0, vhat := fun _ => 0, param := p }

/-- Update step of the base variant (class Adalpha), translated from the
source.  The arguments std and iterations are the mutable optimizer
fields read by the method: std is the control signal written by
update_loss, iterations the global completed-step counter, so the local
step is iterations + 1.  Both gradient paths of the source are covered:
the dense path applies the exponential moment updates directly and the
sparse path first decays the whole tensors and then scatter-adds the
gradient contributions at the given indices. -/
noncomputable def Adalpha.update_step {n : ℕ} (cfg : Config) (std : ℝ) (iterations : ℕ)
    (gradient : Grad n) (s : ParamState n) : ParamState n :=
  let local_step := iterations + 1
  let beta_1_power := cfg.beta_1 ^ local_step
  let beta_2_power := cfg.beta_2 ^ local_step
  let alpha := cfg.lr * (Real.sqrt (1 - beta_2_power) / (1 - beta_1_power)) *
      (1 - std * (cfg.chaos_punish : ℝ)) ^ cfg.chaos_punish
  match gradient with
  | Grad.sparse slices =>
      let m1 : Tensor n := fun i => s.m i + (-(s.m i) * (1 - cfg.beta_1))
      let m2 : Tensor n := scatterAdd m1 (slices.map (fun p => (p.1, p.2 * (1 - cfg.beta_1))))
      let v1 : Tensor n := fun i => s.v i + (-(s.v i) * (1 - cfg.beta_2))
      let v2 : Tensor n := scatterAdd v1 (slices.map (fun p => (p.1, p.2 ^ 2 * (1 - cfg.beta_2))))
      let vhat2 : Tensor n := if cfg.amsgrad then fun i => max (s.vhat i) (v2 i) else s.vhat
      let vden : Tensor n := if cfg.amsgrad then vhat2 else v2
      { m := m2, v := v2, vhat := vhat2,
        param := fun i => s.param i - (m2 i * alpha) / (Real.sqrt (vden i) + cfg.epsilon) }
  | Grad.dense g =>
      let m2 : Tensor n := fun i => s.m i + (g i - s.m i) * (1 - cfg.beta_1)
      let v2 : Tensor n := fun i => s.v i + ((g i) ^ 2 - s.v i) * (1 - cfg.beta_2)
      let vhat2 : Tensor n := if cfg.amsgrad then fun i => max (s.vhat i) (v2 i) else s.vhat
      let vden : Tensor n := if cfg.amsgrad then vhat2 else v2
      { m := m2, v := v2, vhat := vhat2,
        param := fun i => s.param i - (m2 i * alpha) / (Real.sqrt (vden i) + cfg.epsilon) }

/-- Momentum activation of the momentum variant, translated term by term
from the source method of AdAlpha_Momentum: the numerator subtracts the
square of 0.01 times the absolute difference between the absolute mean
and the standard deviation of the whole tensor, the denominator adds 0.1
times the square of that same difference (without the outer absolute
value, which squaring makes irrelevant), the quotient is taken with
divide_no_nan, subtracted from 2, squared, and multiplied by the input. -/
noncomputable def AdAlpha_Momentum.m_activ {n : ℕ} (m : Tensor n) : Tensor n :=
  fun i =>
    m i * (2 - divide_no_nan
        ((m i) ^ 2 - (0.01 * |(|reduce_mean m|) - reduce_std m|) ^ 2)
        ((m i) ^ 2 + 0.1 * ((|reduce_mean m|) - reduce_std m) ^ 2)) ^ 2

/-- Update step of the momentum variant (class AdAlpha_Momentum),
translated from the source.  It differs from the base variant in the
alpha formula (the raw control signal raised to the chaos punishment
exponent) and in passing every raw moment delta through m_activ before
accumulation; in the sparse path the activation of the scattered values
reduces over the values tensor of the slices. -/
noncomputable def AdAlpha_Momentum.update_step {n : ℕ} (cfg : Config) (std : ℝ)
    (iterations : ℕ) (gradient : Grad n) (s : ParamState n) : ParamState n :=
  let local_step := iterations + 1
  let beta_1_power := cfg.beta_1 ^ local_step
  let beta_2_power := cfg.beta_2 ^ local_step
  let alpha := cfg.lr * (Real.sqrt (1 - beta_2_power) / (1 - beta_1_power)) *
      std ^ cfg.chaos_punish
  match gradient with
  | Grad.sparse slices =>
      let m1 : Tensor n := fun i =>
        s.m i + AdAlpha_Momentum.m_activ (fun j => -(s.m j) * (1 - cfg.beta_1)) i
      let mvals := AdAlpha_Momentum.m_activ
        (fun j : Fin slices.length => (slices.get j).2 * (1 - cfg.beta_1))
      let m2 : Tensor n := scatterAdd m1
        ((List.finRange slices.length).map (fun j => ((slices.get j).1, mvals j)))
      let v1 : Tensor n := fun i =>
        s.v i + AdAlpha_Momentum.m_activ (fun j => -(s.v j) * (1 - cfg.beta_2)) i
      let vvals := AdAlpha_Momentum.m_activ
        (fun j : Fin slices.length => (slices.get j).2 ^ 2 * (1 - cfg.beta_2))
      let v2 : Tensor n := scatterAdd v1
        ((List.finRange slices.length).map (fun j => ((slices.get j).1, vvals j)))
      let vhat2 : Tensor n := if cfg.amsgrad then fun i => max (s.vhat i) (v2 i) else s.vhat
      let vden : Tensor n := if cfg.amsgrad then vhat2 else v2
      { m := m2, v := v2, vhat := vhat2,
        param := fun i => s.param i - (m2 i * alpha) / (Real.sqrt (vden i) + cfg.epsilon) }
  | Grad.dense g =>
      let m2 : Tensor n := fun i =>
        s.m i + AdAlpha_Momentum.m_activ (fun j => (g j - s.m j) * (1 - cfg.beta_1)) i
      let v2 : Tensor n := fun i =>
        s.v i + AdAlpha_Momentum.m_activ (fun j => ((g j) ^ 2 - s.v j) * (1 - cfg.beta_2)) i
      let vhat2 : Tensor n := if cfg.amsgrad then fun i => max (s.vhat i) (v2 i) else s.vhat
      let vden : Tensor n := if cfg.amsgrad then vhat2 else v2
      { m := m2, v := v2, vhat := vhat2,
        param := fun i => s.param i - (m2 i * alpha) / (Real.sqrt (vden i) + cfg.epsilon) }

/-- State of the loss-ratio callback (class Adalpha_Callback) together
with the std field of the optimizer it writes through update_loss. -/
structure CallbackState where
  loss : ℝ
  ema_w : ℝ
  change : ℝ
  a : ℝ
  b : ℝ
  opt_std : ℝ

/-- Private method of Adalpha_Callback: updates the two loss EMAs and
pushes the scaled ratio into the optimizer through update_loss, which
overwrites the std field. -/
noncomputable def Adalpha_Callback.calculate_loss_std (s : CallbackState) : CallbackState :=
  let a2 := s.ema_w * s.loss + (1 - s.ema_w) * s.a
  let b2 := (1 - s.ema_w) * s.loss + s.ema_w * s.b
  { s with a := a2, b := b2, opt_std := (s.change * a2) / b2 }

/-- Batch-end hook of Adalpha_Callback: records the batch loss and runs
the EMA update. -/
noncomputable def Adalpha_Callback.on_train_batch_end (s : CallbackState) (loss : ℝ) :
    CallbackState :=
  Adalpha_Callback.calculate_loss_std { s with loss := loss }

/-- State of OneCallback together with the std field of the optimizer it
writes through update_loss. -/
structure OneCallbackState where
  losses : List ℝ
  hold : ℕ
  opt_std : ℝ

/-- Batch-end hook of OneCallback: appends the batch loss, keeps the last
hold entries (the Python slice with a negative start keeps the whole list
when hold is 0), and writes the constant 0.0 into the optimizer. -/
noncomputable def OneCallback.on_train_batch_end (s : OneCallbackState) (loss : ℝ) :
    OneCallbackState :=
  let ls := s.losses ++ [loss]
  { losses := if s.hold = 0 then ls else ls.drop (ls.length - s.hold),
    hold := s.hold,
    opt_std := 0.0 }

/-- Optimizer-level variables touched by build: the built flag and the
per-parameter moment tensors.  The external super().build call owns no
state modelled here (section 6 of the spec requires it to be idempotent). -/
structure BuildState (n : ℕ) where
  built : Bool
  momentums : List (Tensor n)
  velocities : List (Tensor n)
  velocity_hats : List (Tensor n)

/-- Build method of Adalpha: returns immediately when the built flag is
already set, otherwise marks the optimizer built and allocates one
zero tensor per variable for m and v (and for vhat when amsgrad is set),
via add_variable_from_reference. -/
noncomputable def Adalpha.build {n : ℕ} (cfg : Config) (s : BuildState n)
    (var_list : List (Tensor n)) : BuildState n :=
  if s.built then s
  else
    { built := true,
      momentums := var_list.map (fun _ => fun _ => 0),
      velocities := var_list.map (fun _ => fun _ => 0),
      velocity_hats :=
        if cfg.amsgrad then var_list.map (fun _ => fun _ => 0) else s.velocity_hats }

/-- Dense tensor equivalent of a sparse slice list: at every index, the
sum of the slice values carried by that index (zero at untouched
indices). -/
noncomputable def denseEquiv {n : ℕ} (slices : List (Fin n × ℝ)) : Tensor n :=
  fun i => ((slices.filter (fun p => p.1 == i)).map Prod.snd).sum

/-- Trajectory of the base variant: folds update_step over a list of
(control signal, gradient) inputs, incrementing the iterations counter
once per step as the host training loop does. -/
noncomputable def runBase {n : ℕ} (cfg : Config) (inputs : List (ℝ × Grad n))
    (s : ParamState n) (it0 : ℕ) : ParamState n × ℕ :=
  inputs.foldl (fun acc inp => (Adalpha.update_step cfg inp.1 acc.2 inp.2 acc.1, acc.2 + 1))
    (s, it0)

/-- Trajectory of the base variant under all-zero dense gradients with
the control signal and learning rate held fixed. -/
noncomputable def zeroGradRun {n : ℕ} (cfg : Config) (std : ℝ) (it0 : ℕ)
    (s : ParamState n) : ℕ → ParamState n
  | 0 => s
  | Nat.succ k =>
      Adalpha.update_step cfg std (it0 + k) (Grad.dense (fun _ => 0))
        (zeroGradRun cfg std it0 s k)

/-- Default-style configuration used to instantiate witnesses (the
end-to-end scenario constants of the spec). -/
noncomputable def cfgDefault : Config :=
  { lr := 0.01, beta_1 := 9 / 10, beta_2 := 999 / 1000, epsilon := 1 / 10000000,
    amsgrad := false, chaos_punish := 6 }

/-- C5: for every batch loss, the loss-ratio callback updates
a to ema_w * loss + (1 - ema_w) * a and b to (1 - ema_w) * loss + ema_w * b,
and then overwrites the optimizer control signal with change * a / b built
from the updated EMAs, with no averaging against the previous signal. -/
theorem Adalpha_Callback_ema_ratio_update (s : CallbackState) (loss : ℝ) :
    (Adalpha_Callback.on_train_batch_end s loss).a
        = s.ema_w * loss + (1 - s.ema_w) * s.a
    ∧ (Adalpha_Callback.on_train_batch_end s loss).b
        = (1 - s.ema_w) * loss + s.ema_w * s.b
    ∧ (Adalpha_Callback.on_train_batch_end s loss).opt_std
        = s.change * (Adalpha_Callback.on_train_batch_end s loss).a
            / (Adalpha_Callback.on_train_batch_end s loss).b :=
  ⟨rfl, rfl, rfl⟩

/-- C10: the OneCallback batch-end hook writes the constant 0.0 into the
optimizer control signal on every batch, whatever the observed loss and
whatever losses it recorded, so an optimizer driven by it always steps
with std equal to 0. -/
theorem OneCallback_always_writes_zero (s : OneCallbackState) (loss : ℝ) :
    (OneCallback.on_train_batch_end s loss).opt_std = 0 := by
  simp [OneCallback.on_train_batch_end]
  norm_num

/-- C9: build marks the optimizer built, and calling build again on an
already built optimizer (with any variable list, in particular the same
one) returns the state unchanged: the moment tensors keep the values they
had, even after update steps have already run. -/
theorem Adalpha_build_idempotent {n : ℕ} (cfg : Config) (s : BuildState n)
    (var_list : List (Tensor n)) :
    (Adalpha.build cfg s var_list).built = true
    ∧ (s.built = true → Adalpha.build cfg s var_list = s) := by
  constructor
  · by_cases hb : s.built <;> simp [Adalpha.build, hb]
  · intro h
    simp [Adalpha.build, h]

/-- Witness for C9: a concrete already-built state is returned unchanged
by a second build call. -/
theorem Adalpha_build_idempotent_witness :
    Adalpha.build cfgDefault (⟨true, [], [], []⟩ : BuildState 1) [] = ⟨true, [], [], []⟩ :=
  (Adalpha_build_idempotent cfgDefault ⟨true, [], [], []⟩ []).2 rfl

/-- C7: in the momentum variant the parameter update divides the new
first moment times
lr * sqrt(1 - beta_2 ^ t) / (1 - beta_1 ^ t) * std ^ chaos_punishment
by the square root of the second-moment denominator plus epsilon: the
step scale multiplies by the raw control signal raised to the chaos
punishment exponent, with no complement term, on both gradient paths. -/
theorem AdAlpha_Momentum_alpha_raw_signal {n : ℕ} (cfg : Config) (std : ℝ)
    (iterations : ℕ) (gradient : Grad n) (s : ParamState n) (i : Fin n) :
    (AdAlpha_Momentum.update_step cfg std iterations gradient s).param i
      = s.param i -
        (AdAlpha_Momentum.update_step cfg std iterations gradient s).m i *
          (cfg.lr * Real.sqrt (1 - cfg.beta_2 ^ (iterations + 1)) /
            (1 - cfg.beta_1 ^ (iterations + 1)) * std ^ cfg.chaos_punish) /
          (Real.sqrt (if cfg.amsgrad then
              (AdAlpha_Momentum.update_step cfg std iterations gradient s).vhat i
            else (AdAlpha_Momentum.update_step cfg std iterations gradient s).v i)
            + cfg.epsilon) := by
  cases gradient <;> cases hc : cfg.amsgrad <;>
    simp [AdAlpha_Momentum.update_step, hc] <;> ring

/-- C2: one dense base-variant step updates m to m + (g - m) * (1 - beta_1)
and v to v + (g ^ 2 - v) * (1 - beta_2), and subtracts from the parameter
the new m times
lr * sqrt(1 - beta_2 ^ t) / (1 - beta_1 ^ t) * (1 - std * k) ^ k
divided by the square root of v (or of the updated vhat when AMS-grad is
enabled) plus epsilon, where t = iterations + 1 is the current step
counter and std the current control signal. -/
theorem Adalpha_dense_step_formula {n : ℕ} (cfg : Config) (std : ℝ) (iterations : ℕ)
    (g : Tensor n) (s : ParamState n) (i : Fin n) :
    (Adalpha.update_step cfg std iterations (Grad.dense g) s).m i
        = s.m i + (g i - s.m i) * (1 - cfg.beta_1)
    ∧ (Adalpha.update_step cfg std iterations (Grad.dense g) s).v i
        = s.v i + ((g i) ^ 2 - s.v i) * (1 - cfg.beta_2)
    ∧ (Adalpha.update_step cfg std iterations (Grad.dense g) s).param i
        = s.param i -
            (Adalpha.update_step cfg std iterations (Grad.dense g) s).m i *
              (cfg.lr * Real.sqrt (1 - cfg.beta_2 ^ (iterations + 1)) /
                (1 - cfg.beta_1 ^ (iterations + 1)) *
                (1 - std * (cfg.chaos_punish : ℝ)) ^ cfg.chaos_punish) /
              (Real.sqrt (if cfg.amsgrad then
                  (Adalpha.update_step cfg std iterations (Grad.dense g) s).vhat i
                else (Adalpha.update_step cfg std iterations (Grad.dense g) s).v i)
                + cfg.epsilon) := by
  refine ⟨rfl, rfl, ?_⟩
  cases hc : cfg.amsgrad <;> simp [Adalpha.update_step, hc] <;> ring

/-- Activation function as the specification words it: d is the absolute
difference between the scalar mean and the scalar population standard
deviation of the whole tensor, and the safe quotient of the difference of
squares by x ^ 2 + 0.1 * d ^ 2 is subtracted from 2, squared and
multiplied by x.  Stated only to be compared with the source definition. -/
noncomputable def spec_m_activ {n : ℕ} (x : Tensor n) : Tensor n :=
  fun i =>
    x i * (2 - divide_no_nan ((x i) ^ 2 - (|reduce_mean x - reduce_std x|) ^ 2)
      ((x i) ^ 2 + 0.1 * (|reduce_mean x - reduce_std x|) ^ 2)) ^ 2

/-- Mean of the concrete pair tensor with entries 1 and -1. -/
theorem reduce_mean_pair : reduce_mean ![(1 : ℝ), -1] = 0 := by
  simp [reduce_mean, Fin.sum_univ_two]

/-- Standard deviation of the concrete pair tensor with entries 1 and -1. -/
theorem reduce_std_pair : reduce_std ![(1 : ℝ), -1] = 1 := by
  unfold reduce_std
  have h : reduce_mean (fun i => (![(1 : ℝ), -1] i - reduce_mean ![(1 : ℝ), -1]) ^ 2) = 1 := by
    rw [reduce_mean_pair]
    simp [reduce_mean, Fin.sum_univ_two]
  rw [h, Real.sqrt_one]

/-- Counterexample to C1: on the tensor with entries 1 and -1 the source
activation disagrees with the formula of the claim, because the source
subtracts the square of 0.01 times d in the numerator (not the square of
d) and builds d from the absolute value of the mean. -/
theorem m_activ_ne_spec_formula :
    AdAlpha_Momentum.m_activ ![(1 : ℝ), -1] 0 ≠ spec_m_activ ![(1 : ℝ), -1] 0 := by
  unfold AdAlpha_Momentum.m_activ spec_m_activ
  rw [reduce_mean_pair, reduce_std_pair]
  norm_num [divide_no_nan]

/-- C1 amended: the momentum activation returns
x * (2 - safediv(x ^ 2 - (0.01 * d) ^ 2, x ^ 2 + 0.1 * d ^ 2)) ^ 2 where
d is the absolute difference between the absolute value of the scalar
mean of the whole tensor and its scalar population standard deviation,
broadcast to every element. -/
theorem m_activ_formula {n : ℕ} (x : Tensor n) (i : Fin n) :
    AdAlpha_Momentum.m_activ x i
      = x i * (2 - divide_no_nan
          ((x i) ^ 2 - (0.01 * (|(|reduce_mean x|) - reduce_std x|)) ^ 2)
          ((x i) ^ 2 + 0.1 * (|(|reduce_mean x|) - reduce_std x|) ^ 2)) ^ 2 := by
  rw [sq_abs]
  rfl

/-- C6: safe-divide semantics of the momentum activation: a division with
zero denominator yields 0 instead of raising, a zero denominator forces
the activation output to 0 at that element, and wherever the input tensor
is 0 the activation returns 0. -/
theorem m_activ_safe_divide :
    (∀ a b : ℝ, b = 0 → divide_no_nan a b = 0)
    ∧ (∀ (n : ℕ) (x : Tensor n) (i : Fin n),
        (x i) ^ 2 + 0.1 * ((|reduce_mean x|) - reduce_std x) ^ 2 = 0 →
          AdAlpha_Momentum.m_activ x i = 0)
    ∧ (∀ (n : ℕ) (x : Tensor n) (i : Fin n), x i = 0 →
          AdAlpha_Momentum.m_activ x i = 0) := by
  refine ⟨?_, ?_, ?_⟩
  · intro a b hb
    simp [divide_no_nan, hb]
  · intro n x i h
    have hsq : (x i) ^ 2 = 0 := by
      nlinarith [sq_nonneg (x i), sq_nonneg ((|reduce_mean x|) - reduce_std x)]
    have hx : x i = 0 := sq_eq_zero_iff.mp hsq
    simp [AdAlpha_Momentum.m_activ, hx]
  · intro n x i h
    simp [AdAlpha_Momentum.m_activ, h]

/-- Witness for C6: the safe division and the activation evaluate to 0 on
concrete degenerate inputs. -/
theorem m_activ_safe_divide_witness :
    divide_no_nan 5 0 = 0
    ∧ AdAlpha_Momentum.m_activ (fun _ : Fin 1 => (0 : ℝ)) 0 = 0 :=
  ⟨m_activ_safe_divide.1 5 0 rfl, m_activ_safe_divide.2.2 1 (fun _ => 0) 0 rfl⟩

/-- Filtering a slice list for an index that no slot carries yields the
empty list. -/
theorem filter_fst_eq_nil {n : ℕ} {slices : List (Fin n × ℝ)} {i : Fin n}
    (h : i ∉ slices.map Prod.fst) :
    slices.filter (fun p => p.1 == i) = [] := by
  apply List.filter_eq_nil_iff.mpr
  intro p hp
  simp only [beq_iff_eq]
  intro hpi
  exact h (List.mem_map.mpr ⟨p, hp, hpi⟩)

/-- Filtering a slice list with pairwise distinct indices for an index
some slot carries yields exactly that one slot. -/
theorem filter_fst_singleton {n : ℕ} {slices : List (Fin n × ℝ)}
    (hnd : (slices.map Prod.fst).Nodup) {i : Fin n} (hi : i ∈ slices.map Prod.fst) :
    ∃ a : ℝ, slices.filter (fun p => p.1 == i) = [(i, a)] := by
  induction slices with
  | nil => simp at hi
  | cons hd tl ih =>
    simp only [List.map_cons, List.nodup_cons] at hnd
    obtain ⟨hhd, htl⟩ := hnd
    by_cases hcase : hd.1 = i
    · refine ⟨hd.2, ?_⟩
      rw [List.filter_cons_of_pos (by simp [hcase])]
      have htlnil : tl.filter (fun p => p.1 == i) = [] :=
        filter_fst_eq_nil (by rw [← hcase]; exact hhd)
      rw [htlnil]
      obtain ⟨f, sd⟩ := hd
      simp only at hcase
      rw [hcase]
    · have hi2 : i ∈ tl.map Prod.fst := by
        rw [List.map_cons] at hi
        rcases List.mem_cons.mp hi with h1 | h2
        · exact absurd h1.symm hcase
        · exact h2
      rw [List.filter_cons_of_neg (by simp [hcase])]
      exact ih htl hi2

/-- Pointwise value of the first moment after a sparse base-variant step. -/
theorem Adalpha_sparse_m_apply {n : ℕ} (cfg : Config) (std : ℝ) (iterations : ℕ)
    (slices : List (Fin n × ℝ)) (s : ParamState n) (i : Fin n) :
    (Adalpha.update_step cfg std iterations (Grad.sparse slices) s).m i
      = s.m i + (-(s.m i) * (1 - cfg.beta_1))
        + ((slices.filter (fun p => p.1 == i)).map
            (fun p => p.2 * (1 - cfg.beta_1))).sum := by
  simp only [Adalpha.update_step, scatterAdd]
  rw [List.filter_map, List.map_map]
  rfl

/-- Pointwise value of the second moment after a sparse base-variant step. -/
theorem Adalpha_sparse_v_apply {n : ℕ} (cfg : Config) (std : ℝ) (iterations : ℕ)
    (slices : List (Fin n × ℝ)) (s : ParamState n) (i : Fin n) :
    (Adalpha.update_step cfg std iterations (Grad.sparse slices) s).v i
      = s.v i + (-(s.v i) * (1 - cfg.beta_2))
        + ((slices.filter (fun p => p.1 == i)).map
            (fun p => p.2 ^ 2 * (1 - cfg.beta_2))).sum := by
  simp only [Adalpha.update_step, scatterAdd]
  rw [List.filter_map, List.map_map]
  rfl

/-- C3: for a sparse gradient whose slots carry pairwise distinct indices
(an index set with values), the sparse path of the base variant produces
exactly the m and v the dense-path formulas produce on the
dense-equivalent gradient at every touched index, and pure decay by
beta_1 and beta_2 at every untouched index. -/
theorem Adalpha_sparse_matches_dense {n : ℕ} (cfg : Config) (std : ℝ) (iterations : ℕ)
    (slices : List (Fin n × ℝ)) (s : ParamState n)
    (hnd : (slices.map Prod.fst).Nodup) (i : Fin n) :
    (i ∈ slices.map Prod.fst →
        (Adalpha.update_step cfg std iterations (Grad.sparse slices) s).m i
          = (Adalpha.update_step cfg std iterations (Grad.dense (denseEquiv slices)) s).m i
        ∧ (Adalpha.update_step cfg std iterations (Grad.sparse slices) s).v i
          = (Adalpha.update_step cfg std iterations (Grad.dense (denseEquiv slices)) s).v i)
    ∧ (i ∉ slices.map Prod.fst →
        (Adalpha.update_step cfg std iterations (Grad.sparse slices) s).m i
          = cfg.beta_1 * s.m i
        ∧ (Adalpha.update_step cfg std iterations (Grad.sparse slices) s).v i
          = cfg.beta_2 * s.v i) := by
  constructor
  · intro hi
    obtain ⟨a, ha⟩ := filter_fst_singleton hnd hi
    have hde : denseEquiv slices i = a := by
      unfold denseEquiv
      rw [ha]
      simp
    constructor
    · have hdm : (Adalpha.update_step cfg std iterations
            (Grad.dense (denseEquiv slices)) s).m i
          = s.m i + (denseEquiv slices i - s.m i) * (1 - cfg.beta_1) := rfl
      rw [Adalpha_sparse_m_apply, ha, hdm, hde]
      simp only [List.map_cons, List.map_nil, List.sum_cons, List.sum_nil]
      ring
    · have hdv : (Adalpha.update_step cfg std iterations
            (Grad.dense (denseEquiv slices)) s).v i
          = s.v i + ((denseEquiv slices i) ^ 2 - s.v i) * (1 - cfg.beta_2) := rfl
      rw [Adalpha_sparse_v_apply, ha, hdv, hde]
      simp only [List.map_cons, List.map_nil, List.sum_cons, List.sum_nil]
      ring
  · intro hi
    have hnil := filter_fst_eq_nil hi
    constructor
    · rw [Adalpha_sparse_m_apply, hnil]
      simp only [List.map_nil, List.sum_nil]
      ring
    · rw [Adalpha_sparse_v_apply, hnil]
      simp only [List.map_nil, List.sum_nil]
      ring

/-- Witness for C3: a concrete two-slot sparse gradient with distinct
indices agrees with its dense equivalent at a touched index. -/
theorem Adalpha_sparse_matches_dense_witness :
    (([((0 : Fin 2), (2 : ℝ)), (1, 3)].map Prod.fst).Nodup)
    ∧ ((0 : Fin 2) ∈ ([((0 : Fin 2), (2 : ℝ)), (1, 3)].map Prod.fst) →
        (Adalpha.update_step cfgDefault 1 0 (Grad.sparse [((0 : Fin 2), (2 : ℝ)), (1, 3)])
            (zeroState (fun _ => 0))).m 0
          = (Adalpha.update_step cfgDefault 1 0
              (Grad.dense (denseEquiv [((0 : Fin 2), (2 : ℝ)), (1, 3)]))
              (zeroState (fun _ => 0))).m 0
        ∧ (Adalpha.update_step cfgDefault 1 0 (Grad.sparse [((0 : Fin 2), (2 : ℝ)), (1, 3)])
            (zeroState (fun _ => 0))).v 0
          = (Adalpha.update_step cfgDefault 1 0
              (Grad.dense (denseEquiv [((0 : Fin 2), (2 : ℝ)), (1, 3)]))
              (zeroState (fun _ => 0))).v 0) :=
  ⟨by decide,
    (Adalpha_sparse_matches_dense cfgDefault 1 0 [((0 : Fin 2), (2 : ℝ)), (1, 3)]
      (zeroState (fun _ => 0)) (by decide) 0).1⟩

/-- Mean of a constant one-element tensor. -/
theorem reduce_mean_const (c : ℝ) : reduce_mean (fun _ : Fin 1 => c) = c := by
  simp [reduce_mean, Fin.sum_univ_one]

/-- Standard deviation of a constant one-element tensor. -/
theorem reduce_std_const (c : ℝ) : reduce_std (fun _ : Fin 1 => c) = 0 := by
  unfold reduce_std
  rw [reduce_mean_const]
  simp [reduce_mean, Fin.sum_univ_one]

/-- On a nonzero constant one-element tensor the momentum activation is
multiplication by the square of 12001 / 11000. -/
theorem m_activ_scalar (c : ℝ) (hc : c ≠ 0) (i : Fin 1) :
    AdAlpha_Momentum.m_activ (fun _ : Fin 1 => c) i = c * (12001 / 11000) ^ 2 := by
  unfold AdAlpha_Momentum.m_activ
  rw [reduce_mean_const, reduce_std_const]
  have hnum : ((fun _ : Fin 1 => c) i) ^ 2 - (0.01 * |(|c|) - 0|) ^ 2
      = c ^ 2 - 0.0001 * c ^ 2 := by
    rw [sub_zero, abs_abs, mul_pow, sq_abs]
    norm_num
  have hden : ((fun _ : Fin 1 => c) i) ^ 2 + 0.1 * ((|c|) - 0) ^ 2 = 1.1 * c ^ 2 := by
    rw [sub_zero, sq_abs]
    ring
  rw [hnum, hden]
  have hd0 : (1.1 : ℝ) * c ^ 2 ≠ 0 := by positivity
  unfold divide_no_nan
  rw [if_neg hd0]
  have hq : (c ^ 2 - 0.0001 * c ^ 2) / (1.1 * c ^ 2) = 9999 / 11000 := by
    field_simp
    ring
  rw [hq]
  norm_num

/-- Momentum activation applied to a pointwise-constant nonzero
one-element tensor. -/
theorem m_activ_const_eq (x : Tensor 1) (c : ℝ) (hx : ∀ j, x j = c) (hc : c ≠ 0)
    (i : Fin 1) :
    AdAlpha_Momentum.m_activ x i = c * (12001 / 11000) ^ 2 := by
  have hx2 : x = fun _ : Fin 1 => c := funext hx
  rw [hx2]
  exact m_activ_scalar c hc i

/-- Pointwise value of the second moment after a dense momentum-variant
step. -/
theorem AdAlpha_Momentum_dense_v_apply {n : ℕ} (cfg : Config) (std : ℝ) (iterations : ℕ)
    (g : Tensor n) (s : ParamState n) (i : Fin n) :
    (AdAlpha_Momentum.update_step cfg std iterations (Grad.dense g) s).v i
      = s.v i + AdAlpha_Momentum.m_activ
          (fun j => ((g j) ^ 2 - s.v j) * (1 - cfg.beta_2)) i := rfl

/-- Configuration exhibiting the counterexample to C4: a valid Adam-range
second-moment decay rate beta_2 = 1/10. -/
noncomputable def cfgMom : Config :=
  { lr := 1, beta_1 := 9 / 10, beta_2 := 1 / 10, epsilon := 1 / 1000,
    amsgrad := false, chaos_punish := 1 }

/-- Counterexample to C4: with the momentum variant, beta_2 = 1/10 and a
zero-initialized scalar state, the gradient sequence 1, 0 leaves the
second moment v strictly negative after the second update step, because
the activation amplifies the negative decay delta by (12001/11000)^2. -/
theorem momentum_v_goes_negative :
    (AdAlpha_Momentum.update_step cfgMom 1 1 (Grad.dense (fun _ => 0))
      (AdAlpha_Momentum.update_step cfgMom 1 0 (Grad.dense (fun _ => 1))
        (zeroState (fun _ : Fin 1 => 0)))).v 0 < 0 := by
  have h1 : ∀ j : Fin 1,
      (AdAlpha_Momentum.update_step cfgMom 1 0 (Grad.dense (fun _ => 1))
        (zeroState (fun _ : Fin 1 => 0))).v j = 9 / 10 * (12001 / 11000) ^ 2 := by
    intro j
    rw [AdAlpha_Momentum_dense_v_apply,
      m_activ_const_eq _ (9 / 10)
        (fun j2 => by simp [zeroState, cfgMom]; norm_num) (by norm_num) j]
    simp [zeroState]
  rw [AdAlpha_Momentum_dense_v_apply,
    m_activ_const_eq _ (-(81 / 100) * (12001 / 11000) ^ 2)
      (fun j2 => by rw [h1 j2]; simp [cfgMom]; norm_num) (by norm_num) 0,
    h1 0]
  norm_num

/-- One base-variant step preserves elementwise non-negativity of v, on
both gradient paths, for any decay rate beta_2 between 0 and 1. -/
theorem Adalpha_step_v_nonneg {n : ℕ} (cfg : Config) (h0 : 0 ≤ cfg.beta_2)
    (h1 : cfg.beta_2 ≤ 1) (std : ℝ) (it : ℕ) (g : Grad n) (s : ParamState n)
    (hv : ∀ i, 0 ≤ s.v i) (i : Fin n) :
    0 ≤ (Adalpha.update_step cfg std it g s).v i := by
  cases g with
  | dense gd =>
      show 0 ≤ s.v i + ((gd i) ^ 2 - s.v i) * (1 - cfg.beta_2)
      nlinarith [hv i, sq_nonneg (gd i)]
  | sparse slices =>
      rw [Adalpha_sparse_v_apply]
      have hsum : 0 ≤ ((slices.filter (fun p => p.1 == i)).map
          (fun p => p.2 ^ 2 * (1 - cfg.beta_2))).sum := by
        apply List.sum_nonneg
        intro x hx
        obtain ⟨p, hp, hpe⟩ := List.mem_map.mp hx
        rw [← hpe]
        exact mul_nonneg (sq_nonneg _) (by linarith)
      nlinarith [hv i]

/-- Unfolding lemma for one step of the base-variant trajectory. -/
theorem runBase_cons {n : ℕ} (cfg : Config) (hd : ℝ × Grad n) (tl : List (ℝ × Grad n))
    (s : ParamState n) (it0 : ℕ) :
    runBase cfg (hd :: tl) s it0
      = runBase cfg tl (Adalpha.update_step cfg hd.1 it0 hd.2 s) (it0 + 1) := rfl

/-- Along any base-variant trajectory, elementwise non-negativity of v is
an invariant. -/
theorem runBase_v_nonneg {n : ℕ} (cfg : Config) (h0 : 0 ≤ cfg.beta_2)
    (h1 : cfg.beta_2 ≤ 1) :
    ∀ (inputs : List (ℝ × Grad n)) (s : ParamState n) (it0 : ℕ),
      (∀ i, 0 ≤ s.v i) → ∀ i, 0 ≤ (runBase cfg inputs s it0).1.v i := by
  intro inputs
  induction inputs with
  | nil => intro s it0 hs i; exact hs i
  | cons hd tl ih =>
      intro s it0 hs i
      rw [runBase_cons]
      exact ih _ _ (fun j => Adalpha_step_v_nonneg cfg h0 h1 hd.1 it0 hd.2 s hs j) i

/-- C4 amended: for the base variant with 0 <= beta_2 <= 1, starting from
zero-initialized moment state, v stays elementwise non-negative after
every update step of any gradient sequence; and for both variants, when
AMS-grad is enabled, v_hat is elementwise at least v after every update
step.  (The original claim fails: the momentum variant can drive v
negative, see the counterexample.) -/
theorem Adalpha_v_invariant {n : ℕ} (cfg : Config) (h0 : 0 ≤ cfg.beta_2)
    (h1 : cfg.beta_2 ≤ 1) :
    (∀ (inputs : List (ℝ × Grad n)) (p : Tensor n) (it0 : ℕ) (i : Fin n),
        0 ≤ (runBase cfg inputs (zeroState p) it0).1.v i)
    ∧ (cfg.amsgrad = true →
        ∀ (std : ℝ) (it : ℕ) (g : Grad n) (s : ParamState n) (i : Fin n),
          (Adalpha.update_step cfg std it g s).v i
              ≤ (Adalpha.update_step cfg std it g s).vhat i
          ∧ (AdAlpha_Momentum.update_step cfg std it g s).v i
              ≤ (AdAlpha_Momentum.update_step cfg std it g s).vhat i) := by
  constructor
  · intro inputs p it0 i
    exact runBase_v_nonneg cfg h0 h1 inputs (zeroState p) it0 (fun _ => le_refl 0) i
  · intro hams std it g s i
    constructor
    · cases g <;> simp only [Adalpha.update_step, hams, if_true] <;> exact le_max_right _ _
    · cases g <;> simp only [AdAlpha_Momentum.update_step, hams, if_true] <;>
        exact le_max_right _ _

/-- Witness for C4 amended: the default configuration satisfies the decay
bounds and one concrete dense step from the zero state keeps v
non-negative. -/
theorem Adalpha_v_invariant_witness :
    (0 ≤ cfgDefault.beta_2 ∧ cfgDefault.beta_2 ≤ 1)
    ∧ 0 ≤ (runBase cfgDefault [(1, Grad.dense (fun _ : Fin 1 => 5))]
        (zeroState (fun _ => 0)) 0).1.v 0 :=
  ⟨⟨by norm_num [cfgDefault], by norm_num [cfgDefault]⟩,
    (Adalpha_v_invariant cfgDefault (by norm_num [cfgDefault])
      (by norm_num [cfgDefault])).1 [(1, Grad.dense (fun _ => 5))] (fun _ => 0) 0 0⟩

/-- Pointwise value of the first moment after a dense base-variant step. -/
theorem Adalpha_dense_m_apply {n : ℕ} (cfg : Config) (std : ℝ) (it : ℕ) (g : Tensor n)
    (s : ParamState n) (i : Fin n) :
    (Adalpha.update_step cfg std it (Grad.dense g) s).m i
      = s.m i + (g i - s.m i) * (1 - cfg.beta_1) := rfl

/-- Pointwise value of the second moment after a dense base-variant step. -/
theorem Adalpha_dense_v_apply {n : ℕ} (cfg : Config) (std : ℝ) (it : ℕ) (g : Tensor n)
    (s : ParamState n) (i : Fin n) :
    (Adalpha.update_step cfg std it (Grad.dense g) s).v i
      = s.v i + ((g i) ^ 2 - s.v i) * (1 - cfg.beta_2) := rfl

/-- Parameter delta of a dense base-variant step without AMS-grad: the
new first moment times alpha over the square root of the new second
moment plus epsilon. -/
theorem Adalpha_dense_param_delta {n : ℕ} (cfg : Config) (hams : cfg.amsgrad = false)
    (std : ℝ) (it : ℕ) (g : Tensor n) (s : ParamState n) (i : Fin n) :
    s.param i - (Adalpha.update_step cfg std it (Grad.dense g) s).param i
      = ((Adalpha.update_step cfg std it (Grad.dense g) s).m i *
          (cfg.lr * (Real.sqrt (1 - cfg.beta_2 ^ (it + 1)) / (1 - cfg.beta_1 ^ (it + 1))) *
            (1 - std * (cfg.chaos_punish : ℝ)) ^ cfg.chaos_punish)) /
        (Real.sqrt ((Adalpha.update_step cfg std it (Grad.dense g) s).v i) + cfg.epsilon) := by
  simp [Adalpha.update_step, hams]

/-- Pure exponential decay of both moments along the zero-gradient
trajectory of the base variant. -/
theorem zeroGradRun_decay {n : ℕ} (cfg : Config) (std : ℝ) (it0 : ℕ) (s : ParamState n)
    (k : ℕ) (i : Fin n) :
    (zeroGradRun cfg std it0 s (k + 1)).m i = cfg.beta_1 * (zeroGradRun cfg std it0 s k).m i
    ∧ (zeroGradRun cfg std it0 s (k + 1)).v i
        = cfg.beta_2 * (zeroGradRun cfg std it0 s k).v i := by
  constructor
  · rw [show (zeroGradRun cfg std it0 s (k + 1)).m i
        = (Adalpha.update_step cfg std (it0 + k) (Grad.dense (fun _ => 0))
            (zeroGradRun cfg std it0 s k)).m i from rfl,
      Adalpha_dense_m_apply]
    ring
  · rw [show (zeroGradRun cfg std it0 s (k + 1)).v i
        = (Adalpha.update_step cfg std (it0 + k) (Grad.dense (fun _ => 0))
            (zeroGradRun cfg std it0 s k)).v i from rfl,
      Adalpha_dense_v_apply]
    ring

/-- Closed form of the first moment along the zero-gradient trajectory. -/
theorem zeroGradRun_m_pow {n : ℕ} (cfg : Config) (std : ℝ) (it0 : ℕ) (s : ParamState n) :
    ∀ (k : ℕ) (i : Fin n),
      (zeroGradRun cfg std it0 s k).m i = cfg.beta_1 ^ k * s.m i := by
  intro k
  induction k with
  | zero => intro i; simp [zeroGradRun]
  | succ k ih =>
      intro i
      rw [(zeroGradRun_decay cfg std it0 s k i).1, ih i]
      ring

/-- Parameter delta of a dense base-variant step on either AMS-grad
setting: the new first moment times alpha over the square root of the
second-moment denominator plus epsilon. -/
theorem Adalpha_dense_param_delta_any {n : ℕ} (cfg : Config) (std : ℝ) (it : ℕ)
    (g : Tensor n) (s : ParamState n) (i : Fin n) :
    s.param i - (Adalpha.update_step cfg std it (Grad.dense g) s).param i
      = ((Adalpha.update_step cfg std it (Grad.dense g) s).m i *
          (cfg.lr * (Real.sqrt (1 - cfg.beta_2 ^ (it + 1)) / (1 - cfg.beta_1 ^ (it + 1))) *
            (1 - std * (cfg.chaos_punish : ℝ)) ^ cfg.chaos_punish)) /
        (Real.sqrt ((if cfg.amsgrad then
            (Adalpha.update_step cfg std it (Grad.dense g) s).vhat
          else (Adalpha.update_step cfg std it (Grad.dense g) s).v) i) + cfg.epsilon) := by
  cases hc : cfg.amsgrad <;> simp [Adalpha.update_step, hc]

/-- C8 amended: under all-zero dense gradients with the control signal
and learning rate held fixed (base variant, 0 <= beta_1 < 1,
0 <= beta_2 <= 1, epsilon > 0), both moments undergo pure exponential
decay each step (hence converge to 0), and the magnitude of the per-step
parameter delta converges to 0 as the steps proceed; it need not
decrease strictly at every step. -/
theorem Adalpha_zero_grad_convergence {n : ℕ} (cfg : Config)
    (h10 : 0 ≤ cfg.beta_1) (h11 : cfg.beta_1 < 1)
    (h20 : 0 ≤ cfg.beta_2) (h21 : cfg.beta_2 ≤ 1) (heps : 0 < cfg.epsilon)
    (std : ℝ) (it0 : ℕ) (s : ParamState n) (i : Fin n) :
    (∀ k, (zeroGradRun cfg std it0 s (k + 1)).m i
          = cfg.beta_1 * (zeroGradRun cfg std it0 s k).m i
        ∧ (zeroGradRun cfg std it0 s (k + 1)).v i
          = cfg.beta_2 * (zeroGradRun cfg std it0 s k).v i)
    ∧ Filter.Tendsto
        (fun k => |(zeroGradRun cfg std it0 s k).param i
          - (zeroGradRun cfg std it0 s (k + 1)).param i|)
        Filter.atTop (nhds 0) := by
  refine ⟨fun k => zeroGradRun_decay cfg std it0 s k i, ?_⟩
  have hc0 : (0 : ℝ) < 1 - cfg.beta_1 := by linarith
  apply squeeze_zero (g := fun k =>
    (|s.m i| * (|cfg.lr| * (1 / (1 - cfg.beta_1)) *
      |(1 - std * (cfg.chaos_punish : ℝ)) ^ cfg.chaos_punish|) / cfg.epsilon)
    * cfg.beta_1 ^ (k + 1))
  · intro k
    exact abs_nonneg _
  · intro k
    have hd2 : (zeroGradRun cfg std it0 s k).param i
          - (zeroGradRun cfg std it0 s (k + 1)).param i
        = ((zeroGradRun cfg std it0 s (k + 1)).m i *
            (cfg.lr * (Real.sqrt (1 - cfg.beta_2 ^ (it0 + k + 1)) /
              (1 - cfg.beta_1 ^ (it0 + k + 1))) *
              (1 - std * (cfg.chaos_punish : ℝ)) ^ cfg.chaos_punish)) /
          (Real.sqrt ((if cfg.amsgrad then (zeroGradRun cfg std it0 s (k + 1)).vhat
              else (zeroGradRun cfg std it0 s (k + 1)).v) i) + cfg.epsilon) :=
      Adalpha_dense_param_delta_any cfg std (it0 + k) (fun _ => 0)
        (zeroGradRun cfg std it0 s k) i
    rw [hd2]
    have hsq : (0 : ℝ) ≤ Real.sqrt ((if cfg.amsgrad then (zeroGradRun cfg std it0 s (k + 1)).vhat
        else (zeroGradRun cfg std it0 s (k + 1)).v) i) := Real.sqrt_nonneg _
    have hD0 : (0 : ℝ) < Real.sqrt ((if cfg.amsgrad then (zeroGradRun cfg std it0 s (k + 1)).vhat
        else (zeroGradRun cfg std it0 s (k + 1)).v) i) + cfg.epsilon := by linarith
    have hDe : cfg.epsilon ≤ Real.sqrt ((if cfg.amsgrad then
        (zeroGradRun cfg std it0 s (k + 1)).vhat
        else (zeroGradRun cfg std it0 s (k + 1)).v) i) + cfg.epsilon := by linarith
    rw [abs_div, abs_of_pos hD0, abs_mul]
    have hm : |(zeroGradRun cfg std it0 s (k + 1)).m i|
        = cfg.beta_1 ^ (k + 1) * |s.m i| := by
      rw [zeroGradRun_m_pow cfg std it0 s (k + 1) i, abs_mul, abs_pow, abs_of_nonneg h10]
    have hb1t : cfg.beta_1 ^ (it0 + k + 1) ≤ cfg.beta_1 := by
      calc cfg.beta_1 ^ (it0 + k + 1) ≤ cfg.beta_1 ^ 1 :=
            pow_le_pow_of_le_one h10 h11.le (by omega)
        _ = cfg.beta_1 := pow_one _
    have hb1t2 : (0 : ℝ) < 1 - cfg.beta_1 ^ (it0 + k + 1) := by
      have h3 : cfg.beta_1 ^ (it0 + k + 1) < 1 := lt_of_le_of_lt hb1t h11
      linarith
    have hfrac : |Real.sqrt (1 - cfg.beta_2 ^ (it0 + k + 1)) /
          (1 - cfg.beta_1 ^ (it0 + k + 1))|
        ≤ 1 / (1 - cfg.beta_1) := by
      rw [abs_div, abs_of_nonneg (Real.sqrt_nonneg _), abs_of_pos hb1t2]
      refine div_le_div₀ (by norm_num) ?_ hc0 (by linarith)
      exact Real.sqrt_le_one.mpr (by nlinarith [pow_nonneg h20 (it0 + k + 1)])
    have halpha : |cfg.lr * (Real.sqrt (1 - cfg.beta_2 ^ (it0 + k + 1)) /
            (1 - cfg.beta_1 ^ (it0 + k + 1))) *
          (1 - std * (cfg.chaos_punish : ℝ)) ^ cfg.chaos_punish|
        ≤ |cfg.lr| * (1 / (1 - cfg.beta_1)) *
          |(1 - std * (cfg.chaos_punish : ℝ)) ^ cfg.chaos_punish| := by
      rw [abs_mul, abs_mul]
      exact mul_le_mul_of_nonneg_right
        (mul_le_mul_of_nonneg_left hfrac (abs_nonneg cfg.lr)) (abs_nonneg _)
    have hnum : |(zeroGradRun cfg std it0 s (k + 1)).m i| *
          |cfg.lr * (Real.sqrt (1 - cfg.beta_2 ^ (it0 + k + 1)) /
            (1 - cfg.beta_1 ^ (it0 + k + 1))) *
            (1 - std * (cfg.chaos_punish : ℝ)) ^ cfg.chaos_punish|
        ≤ (cfg.beta_1 ^ (k + 1) * |s.m i|) *
          (|cfg.lr| * (1 / (1 - cfg.beta_1)) *
            |(1 - std * (cfg.chaos_punish : ℝ)) ^ cfg.chaos_punish|) := by
      rw [hm]
      exact mul_le_mul_of_nonneg_left halpha (by positivity)
    calc |(zeroGradRun cfg std it0 s (k + 1)).m i| *
          |cfg.lr * (Real.sqrt (1 - cfg.beta_2 ^ (it0 + k + 1)) /
            (1 - cfg.beta_1 ^ (it0 + k + 1))) *
            (1 - std * (cfg.chaos_punish : ℝ)) ^ cfg.chaos_punish| /
          (Real.sqrt ((if cfg.amsgrad then (zeroGradRun cfg std it0 s (k + 1)).vhat
              else (zeroGradRun cfg std it0 s (k + 1)).v) i) + cfg.epsilon)
        ≤ ((cfg.beta_1 ^ (k + 1) * |s.m i|) *
            (|cfg.lr| * (1 / (1 - cfg.beta_1)) *
              |(1 - std * (cfg.chaos_punish : ℝ)) ^ cfg.chaos_punish|)) / cfg.epsilon :=
          div_le_div₀ (by positivity) hnum heps hDe
      _ = (|s.m i| * (|cfg.lr| * (1 / (1 - cfg.beta_1)) *
            |(1 - std * (cfg.chaos_punish : ℝ)) ^ cfg.chaos_punish|) / cfg.epsilon)
          * cfg.beta_1 ^ (k + 1) := by ring
  · have hpow : Filter.Tendsto (fun k : ℕ => cfg.beta_1 ^ k) Filter.atTop (nhds 0) :=
      tendsto_pow_atTop_nhds_zero_of_lt_one h10 h11
    have hbase := (hpow.const_mul
      (|s.m i| * (|cfg.lr| * (1 / (1 - cfg.beta_1)) *
        |(1 - std * (cfg.chaos_punish : ℝ)) ^ cfg.chaos_punish|) / cfg.epsilon)).comp
      (Filter.tendsto_add_atTop_nat 1)
    rw [mul_zero] at hbase
    exact hbase

/-- Configuration exhibiting the counterexample to C8: a fast
second-moment decay beta_2 = 1/100 makes the step denominator shrink
faster than the first moment. -/
noncomputable def cfgC8 : Config :=
  { lr := 1, beta_1 := 9 / 10, beta_2 := 1 / 100, epsilon := 1 / 1000,
    amsgrad := false, chaos_punish := 1 }

/-- Scalar moment state with unit moments, as left behind by earlier
training, from which the zero-gradient phase of the counterexample
starts. -/
noncomputable def sC8 : ParamState 1 :=
  { m := fun _ => 1, v := fun _ => 1, vhat := fun _ => 0, param := fun _ => 0 }

/-- Counterexample to C8: with beta_1 = 9/10, beta_2 = 1/100 and two
all-zero dense gradients (control signal and learning rate fixed), the
magnitude of the parameter delta strictly increases from the first to
the second step instead of decreasing. -/
theorem Adalpha_delta_not_decreasing :
    |(zeroGradRun cfgC8 0 0 sC8 0).param 0 - (zeroGradRun cfgC8 0 0 sC8 1).param 0|
      < |(zeroGradRun cfgC8 0 0 sC8 1).param 0 - (zeroGradRun cfgC8 0 0 sC8 2).param 0| := by
  have hm1 : (zeroGradRun cfgC8 0 0 sC8 1).m 0 = 9 / 10 := by
    rw [show (zeroGradRun cfgC8 0 0 sC8 1).m 0
        = (Adalpha.update_step cfgC8 0 0 (Grad.dense (fun _ => 0)) sC8).m 0 from rfl,
      Adalpha_dense_m_apply]
    norm_num [sC8, cfgC8]
  have hv1 : (zeroGradRun cfgC8 0 0 sC8 1).v 0 = 1 / 100 := by
    rw [show (zeroGradRun cfgC8 0 0 sC8 1).v 0
        = (Adalpha.update_step cfgC8 0 0 (Grad.dense (fun _ => 0)) sC8).v 0 from rfl,
      Adalpha_dense_v_apply]
    norm_num [sC8, cfgC8]
  have hm2 : (zeroGradRun cfgC8 0 0 sC8 2).m 0 = 81 / 100 := by
    rw [show (zeroGradRun cfgC8 0 0 sC8 2).m 0
        = (Adalpha.update_step cfgC8 0 1 (Grad.dense (fun _ => 0))
            (zeroGradRun cfgC8 0 0 sC8 1)).m 0 from rfl,
      Adalpha_dense_m_apply, hm1]
    norm_num [cfgC8]
  have hv2 : (zeroGradRun cfgC8 0 0 sC8 2).v 0 = 1 / 10000 := by
    rw [show (zeroGradRun cfgC8 0 0 sC8 2).v 0
        = (Adalpha.update_step cfgC8 0 1 (Grad.dense (fun _ => 0))
            (zeroGradRun cfgC8 0 0 sC8 1)).v 0 from rfl,
      Adalpha_dense_v_apply, hv1]
    norm_num [cfgC8]
  have hs1 : Real.sqrt ((1 : ℝ) / 100) = 1 / 10 := by
    rw [show (1 : ℝ) / 100 = (1 / 10) ^ 2 by norm_num, Real.sqrt_sq (by norm_num)]
  have hs2 : Real.sqrt ((1 : ℝ) / 10000) = 1 / 100 := by
    rw [show (1 : ℝ) / 10000 = (1 / 100) ^ 2 by norm_num, Real.sqrt_sq (by norm_num)]
  have hd0 : (zeroGradRun cfgC8 0 0 sC8 0).param 0 - (zeroGradRun cfgC8 0 0 sC8 1).param 0
      = ((zeroGradRun cfgC8 0 0 sC8 1).m 0 *
          (cfgC8.lr * (Real.sqrt (1 - cfgC8.beta_2 ^ (0 + 1)) /
            (1 - cfgC8.beta_1 ^ (0 + 1))) *
            (1 - (0 : ℝ) * (cfgC8.chaos_punish : ℝ)) ^ cfgC8.chaos_punish)) /
        (Real.sqrt ((zeroGradRun cfgC8 0 0 sC8 1).v 0) + cfgC8.epsilon) :=
    Adalpha_dense_param_delta cfgC8 rfl 0 0 (fun _ => 0) sC8 0
  have hd1 : (zeroGradRun cfgC8 0 0 sC8 1).param 0 - (zeroGradRun cfgC8 0 0 sC8 2).param 0
      = ((zeroGradRun cfgC8 0 0 sC8 2).m 0 *
          (cfgC8.lr * (Real.sqrt (1 - cfgC8.beta_2 ^ (1 + 1)) /
            (1 - cfgC8.beta_1 ^ (1 + 1))) *
            (1 - (0 : ℝ) * (cfgC8.chaos_punish : ℝ)) ^ cfgC8.chaos_punish)) /
        (Real.sqrt ((zeroGradRun cfgC8 0 0 sC8 2).v 0) + cfgC8.epsilon) :=
    Adalpha_dense_param_delta cfgC8 rfl 0 1 (fun _ => 0) (zeroGradRun cfgC8 0 0 sC8 1) 0
  rw [hm1, hv1, hs1] at hd0
  rw [hm2, hv2, hs2] at hd1
  have e0 : (zeroGradRun cfgC8 0 0 sC8 0).param 0 - (zeroGradRun cfgC8 0 0 sC8 1).param 0
      = 9000 / 101 * Real.sqrt (99 / 100) := by
    rw [hd0, show (1 : ℝ) - cfgC8.beta_2 ^ (0 + 1) = 99 / 100 by norm_num [cfgC8]]
    norm_num [cfgC8]
    ring
  have e1 : (zeroGradRun cfgC8 0 0 sC8 1).param 0 - (zeroGradRun cfgC8 0 0 sC8 2).param 0
      = 81000 / 209 * Real.sqrt (9999 / 10000) := by
    rw [hd1, show (1 : ℝ) - cfgC8.beta_2 ^ (1 + 1) = 9999 / 10000 by norm_num [cfgC8]]
    norm_num [cfgC8]
    ring
  rw [e0, e1]
  have h99 : Real.sqrt ((99 : ℝ) / 100) ≤ 1 := Real.sqrt_le_one.mpr (by norm_num)
  have h99n : (0 : ℝ) ≤ Real.sqrt ((99 : ℝ) / 100) := Real.sqrt_nonneg _
  have h9999 : (9 / 10 : ℝ) ≤ Real.sqrt ((9999 : ℝ) / 10000) := by
    rw [show (9 / 10 : ℝ) = Real.sqrt ((9 / 10) ^ 2) from (Real.sqrt_sq (by norm_num)).symm]
    apply Real.sqrt_le_sqrt
    norm_num
  have h9999n : (0 : ℝ) ≤ Real.sqrt ((9999 : ℝ) / 10000) := Real.sqrt_nonneg _
  rw [abs_of_nonneg (by positivity), abs_of_nonneg (by positivity)]
  nlinarith [h99, h99n, h9999]

/-- Witness for C8 amended: the default configuration satisfies the
hypotheses and the per-step delta magnitude of the zero-gradient
trajectory from the zero state converges to 0. -/
theorem Adalpha_zero_grad_convergence_witness :
    ((0 : ℝ) ≤ cfgDefault.beta_1 ∧ cfgDefault.beta_1 < 1 ∧ (0 : ℝ) ≤ cfgDefault.beta_2
      ∧ cfgDefault.beta_2 ≤ 1 ∧ 0 < cfgDefault.epsilon)
    ∧ Filter.Tendsto
        (fun k => |(zeroGradRun cfgDefault 1 0 (zeroState (fun _ : Fin 1 => 0)) k).param 0
          - (zeroGradRun cfgDefault 1 0 (zeroState (fun _ : Fin 1 => 0)) (k + 1)).param 0|)
        Filter.atTop (nhds 0) :=
  ⟨⟨by norm_num [cfgDefault], by norm_num [cfgDefault], by norm_num [cfgDefault],
      by norm_num [cfgDefault], by norm_num [cfgDefault]⟩,
    (Adalpha_zero_grad_convergence cfgDefault (by norm_num [cfgDefault])
      (by norm_num [cfgDefault]) (by norm_num [cfgDefault]) (by norm_num [cfgDefault])
      (by norm_num [cfgDefault]) 1 0 (zeroState (fun _ => 0)) 0).2⟩
